import Mathlib

/-!
Shallow embedding of the personal-budget-tracker application (`src/app.py`)
and proofs about its filter resolution, aggregation, CRUD validation,
budget upsert, export, and tenant-isolation behaviour.

Text is modelled as `List Char` (named `Str` below), so that every string
operation is a structural function the kernel can evaluate.  Monetary values
and SQL `REAL`s are modelled as exact rationals `ℚ`; the executable rational
operations (`qAdd`, `qMul`, ...) are built on `Rat.divInt` so that concrete
instances evaluate by `decide`, and are proved equal to the ambient field
operations below.
-/

namespace BudgetApp

/-- Character-list strings, used so that all text operations compute. -/
abbrev Str := List Char

/-- Python `str.strip()`: drop leading and trailing whitespace. -/
def strip (s : Str) : Str :=
  ((s.dropWhile Char.isWhitespace).reverse.dropWhile Char.isWhitespace).reverse

/-- Byte-wise (codepoint-wise) lexicographic strict order on strings, the
order SQLite's default `BINARY` collation uses for `tx_date BETWEEN ? AND ?`
comparisons on ISO dates. -/
def strLtB : Str → Str → Bool
  | [], [] => false
  | [], _ :: _ => true
  | _ :: _, [] => false
  | a :: as, b :: bs => if a < b then true else if b < a then false else strLtB as bs

/-- Lexicographic `≤` on strings, as the negation of the reverse strict order. -/
def strLeB (a b : Str) : Bool := !(strLtB b a)

/-- Insert an element into a list so that it lands before the first element
`y` with `le x y`. Auxiliary for `sortBy`. -/
def insertBy (le : α → α → Bool) (x : α) : List α → List α
  | [] => [x]
  | y :: ys => if le x y then x :: y :: ys else y :: insertBy le x ys

/-- Insertion sort by a boolean comparator; models SQL `ORDER BY`. -/
def sortBy (le : α → α → Bool) : List α → List α
  | [] => []
  | x :: xs => insertBy le x (sortBy le xs)

/-- Executable rational addition via `Rat.divInt` (kernel-reducible,
unlike the `@[irreducible]` `Rat.add`). -/
def qAdd (a b : ℚ) : ℚ := Rat.divInt (a.num * b.den + b.num * a.den) (a.den * b.den)

/-- Executable rational negation-and-add, i.e. subtraction. -/
def qSub (a b : ℚ) : ℚ := qAdd a (-b)

/-- Executable rational multiplication via `Rat.divInt`. -/
def qMul (a b : ℚ) : ℚ := Rat.divInt (a.num * b.num) (a.den * b.den)

/-- Executable rational division via `Rat.divInt` (returns 0 on a zero
divisor, matching the ambient `/` convention; the program only divides by a
budget that was checked positive). -/
def qDiv (a b : ℚ) : ℚ := Rat.divInt (a.num * b.den) (a.den * b.num)

/-- Executable sum of a list of rationals; models SQL `COALESCE(SUM(...), 0)`
(the empty sum is 0). -/
def qsum (l : List ℚ) : ℚ := l.foldr qAdd 0

/-- Python `int()` truncation toward zero applied to a rational. -/
def pyTrunc (x : ℚ) : ℤ := if 0 ≤ x then ⌊x⌋ else -⌊-x⌋

/-- Round a rational to the nearest integer, ties to even: the rounding used
by Python's builtin `round` (the model treats the float arithmetic of the
source as exact rational arithmetic). -/
def rndHalfEven (x : ℚ) : ℤ :=
  let f : ℤ := ⌊x⌋
  let r : ℚ := qSub x (Rat.divInt f 1)
  if r < Rat.divInt 1 2 then f
  else if Rat.divInt 1 2 < r then f + 1
  else if f % 2 = 0 then f else f + 1

/-- Python `round(x, 2)`: round to 2 fractional digits, ties to even. -/
def round2 (x : ℚ) : ℚ := Rat.divInt (rndHalfEven (qMul x (Rat.divInt 100 1))) 100

/-- Decimal digit string of a natural number. -/
def natDigits (n : Nat) : Str := (Nat.repr n).toList

/-- Zero-pad a natural number to (at least) two digits, as `f"{n:02d}"`. -/
def pad2 (n : Nat) : Str := if n < 10 then '0' :: natDigits n else natDigits n

/-- Zero-pad a natural number to (at least) four digits, as in
`datetime.date.isoformat` year formatting. -/
def pad4 (n : Nat) : Str :=
  if n < 10 then '0' :: '0' :: '0' :: natDigits n
  else if n < 100 then '0' :: '0' :: natDigits n
  else if n < 1000 then '0' :: natDigits n
  else natDigits n

/-- ISO `YYYY-MM-DD` rendering of a calendar day, as
`datetime.date(y, m, d).isoformat()`. -/
def isoDate (y m d : Nat) : Str := pad4 y ++ '-' :: pad2 m ++ '-' :: pad2 d

/-- Gregorian leap-year test, as `calendar.isleap`. -/
def isLeap (y : Nat) : Bool := y % 4 == 0 && (y % 100 != 0 || y % 400 == 0)

/-- Number of days of a month, as `calendar.monthrange(y, m)[1]`. -/
def daysInMonth (y m : Nat) : Nat :=
  if m == 2 then (if isLeap y then 29 else 28)
  else if m == 4 || m == 6 || m == 9 || m == 11 then 30
  else 31

/-- The `month_bounds` helper of `app.py`: first and last calendar day of a
month, in ISO form. -/
def month_bounds (y m : Nat) : Str × Str := (isoDate y m 1, isoDate y m (daysInMonth y m))

/-- Row of the `transactions` table.  `note` is the stored note text (the
application always writes a string; a SQL `NULL` note behaves as `""` at
every read site via `row["note"] or ""`). -/
structure Txn where
  id : Nat
  user_id : Nat
  tx_date : Str
  kind : Str
  category : Str
  amount : ℚ
  note : Str
deriving DecidableEq

/-- Row of the `budgets` table, keyed by `(user_id, year, month)`. -/
structure BudgetRow where
  user_id : Nat
  year : Nat
  month : Nat
  amount : ℚ
deriving DecidableEq

/-- Literal `"income"`. -/
def incomeK : Str := "income".toList

/-- Literal `"expense"`. -/
def expenseK : Str := "expense".toList

/-- Literal `"General"`, the default category. -/
def generalK : Str := "General".toList

/-- The `parse_filters` helper: reads the (already absent-defaulted) query
arguments, strips them, and falls back to the month bounds when either date
override is missing.  Returns `(date_from, date_to, category)`. -/
def parse_filters (y m : Nat) (argDF argDT argCat : Str) : Str × Str × Str :=
  let cat := strip argCat
  let df := strip argDF
  let dt := strip argDT
  if df.isEmpty || dt.isEmpty then
    ((month_bounds y m).1, (month_bounds y m).2, cat)
  else (df, dt, cat)

/-- The `current_filters_or_month` helper used by the exporters: same date
resolution as `parse_filters`, without the category. -/
def current_filters_or_month (y m : Nat) (argDF argDT : Str) : Str × Str :=
  let df := strip argDF
  let dt := strip argDT
  if df.isEmpty || dt.isEmpty then month_bounds y m else (df, dt)

/-- The `WHERE` clause shared by every query of the `index` view:
`user_id = ? AND tx_date BETWEEN ? AND ?` plus, when the **raw** `category`
query argument is non-empty (`add_filters_to_query` tests the untrimmed
argument), `AND category = ?` against that raw argument. -/
def indexPred (uid : Nat) (df dt rawCat : Str) (t : Txn) : Bool :=
  t.user_id == uid && (strLeB df t.tx_date && strLeB t.tx_date dt &&
    (rawCat.isEmpty || t.category == rawCat))

/-- Transactions matching the `index` view's filters. -/
def indexFiltered (txs : List Txn) (uid : Nat) (df dt rawCat : Str) : List Txn :=
  txs.filter (indexPred uid df dt rawCat)

/-- Income total of the `index` view: `COALESCE(SUM(CASE WHEN kind='income'
THEN amount END), 0)` over the filtered rows. -/
def incomeTotal (txs : List Txn) (uid : Nat) (df dt rawCat : Str) : ℚ :=
  qsum (((indexFiltered txs uid df dt rawCat).filter (fun t => t.kind == incomeK)).map Txn.amount)

/-- Expense total of the `index` view. -/
def expenseTotal (txs : List Txn) (uid : Nat) (df dt rawCat : Str) : ℚ :=
  qsum (((indexFiltered txs uid df dt rawCat).filter (fun t => t.kind == expenseK)).map Txn.amount)

/-- The reported balance: `income - expense`. -/
def balance (txs : List Txn) (uid : Nat) (df dt rawCat : Str) : ℚ :=
  qSub (incomeTotal txs uid df dt rawCat) (expenseTotal txs uid df dt rawCat)

/-- Budget lookup for the requested `(user, year, month)`; `0.0` when no row
exists (`float(b["amount"]) if b else 0.0`). -/
def budgetAmount (bs : List BudgetRow) (uid y m : Nat) : ℚ :=
  match bs.find? (fun b => b.user_id == uid && b.year == y && b.month == m) with
  | some b => b.amount
  | none => 0

/-- The `remaining` value: `budget - expense if budget > 0 else None`. -/
def remaining (bs : List BudgetRow) (txs : List Txn) (uid y m : Nat) (df dt rawCat : Str) :
    Option ℚ :=
  let b := budgetAmount bs uid y m
  if 0 < b then some (qSub b (expenseTotal txs uid df dt rawCat)) else none

/-- The progress percentage:
`int(min(100, (expense / budget) * 100)) if budget > 0 else None`. -/
def progressPct (bs : List BudgetRow) (txs : List Txn) (uid y m : Nat) (df dt rawCat : Str) :
    Option ℤ :=
  let b := budgetAmount bs uid y m
  if 0 < b then
    some (pyTrunc (min (Rat.divInt 100 1)
      (qMul (qDiv (expenseTotal txs uid df dt rawCat) b) (Rat.divInt 100 1))))
  else none

/-- Group keys of `GROUP BY category` over the filtered rows, in first
occurrence order (the concrete order among distinct keys is irrelevant to
every theorem below; SQLite leaves it unspecified). -/
def distinctCats : List Txn → List Str
  | [] => []
  | t :: ts => let rest := distinctCats ts
    if rest.contains t.category then rest else t.category :: rest

/-- Per-category expense total within a group:
`COALESCE(SUM(CASE WHEN kind='expense' THEN amount END), 0)`. -/
def catTotal (l : List Txn) (c : Str) : ℚ :=
  qsum ((l.filter (fun t => t.category == c && t.kind == expenseK)).map Txn.amount)

/-- Comparator for `ORDER BY total DESC`. -/
def totDescLe (a b : Str × ℚ) : Bool := decide (b.2 ≤ a.2)

/-- The category breakdown of the `index` view: per-category expense sums
over the filtered rows, `HAVING total > 0`, `ORDER BY total DESC`. -/
def catBreakdown (txs : List Txn) (uid : Nat) (df dt rawCat : Str) : List (Str × ℚ) :=
  let l := indexFiltered txs uid df dt rawCat
  sortBy totDescLe (((distinctCats l).map (fun c => (c, catTotal l c))).filter
    (fun p => decide (0 < p.2)))

/-- Comparator for the listing's `ORDER BY tx_date DESC, id DESC`. -/
def descLe (s t : Txn) : Bool :=
  strLtB t.tx_date s.tx_date || (s.tx_date == t.tx_date && t.id ≤ s.id)

/-- Comparator for the exports' `ORDER BY tx_date ASC, id ASC`. -/
def ascLe (s t : Txn) : Bool :=
  strLtB s.tx_date t.tx_date || (s.tx_date == t.tx_date && s.id ≤ t.id)

/-- Transaction listing of the `index` view for raw query arguments
`(argDF, argDT, argCat)`: dates resolved by `parse_filters`, category filter
taken from the raw argument, rows ordered date-descending then
id-descending. -/
def indexListing (txs : List Txn) (uid y m : Nat) (argDF argDT argCat : Str) : List Txn :=
  let f := parse_filters y m argDF argDT argCat
  sortBy descLe (indexFiltered txs uid f.1 f.2.1 argCat)

/-- Row set of `export_csv` and `export_xlsx` for the same raw query
arguments: dates resolved by `current_filters_or_month`, category filter
taken from the **trimmed** argument, rows ordered date-ascending then
id-ascending. -/
def exportRows (txs : List Txn) (uid y m : Nat) (argDF argDT argCat : Str) : List Txn :=
  let f := current_filters_or_month y m argDF argDT
  sortBy ascLe (txs.filter (indexPred uid f.1 f.2 (strip argCat)))

/-- Render an amount as `f"{x:.2f}"` (amounts are non-negative by the
schema's `CHECK(amount >= 0)`; the negative branch carries the sign). -/
def fmt2 (x : ℚ) : Str :=
  let c := rndHalfEven (qMul x (Rat.divInt 100 1))
  let n := c.natAbs
  (if c < 0 then ['-'] else []) ++ natDigits (n / 100) ++ '.' :: pad2 (n % 100)

/-- One CSV data row of `export_csv`:
`[tx_date, kind, category, f"{amount:.2f}", note]`. -/
def csvLine (t : Txn) : List Str := [t.tx_date, t.kind, t.category, fmt2 t.amount, t.note]

/-- All CSV data rows (after the header) of `export_csv`. -/
def csvDataLines (txs : List Txn) (uid y m : Nat) (argDF argDT argCat : Str) : List (List Str) :=
  (exportRows txs uid y m argDF argDT argCat).map csvLine

/-- One spreadsheet data row of `export_xlsx`: the amount is appended as a
numeric cell (`float(r["amount"])`), not a string. -/
def xlsxLine (t : Txn) : Str × Str × Str × ℚ × Str :=
  (t.tx_date, t.kind, t.category, t.amount, t.note)

/-- All spreadsheet data rows (after the header) of `export_xlsx`. -/
def xlsxDataRows (txs : List Txn) (uid y m : Nat) (argDF argDT argCat : Str) :
    List (Str × Str × Str × ℚ × Str) :=
  (exportRows txs uid y m argDF argDT argCat).map xlsxLine

/-- Numeric value of a digit string (most significant first). -/
def digitsToNat (s : Str) : Nat := s.foldl (fun acc c => acc * 10 + (c.toNat - 48)) 0

/-- Split an optional leading `+`/`-` sign, returning the sign as `1`/`-1`. -/
def splitSign : Str → ℤ × Str
  | '-' :: r => (-1, r)
  | '+' :: r => (1, r)
  | r => (1, r)

/-- Python `int(s)` on a string: strip whitespace, optional sign, at least
one digit.  (Underscore digit separators are outside the model; no call site
of the program passes them.) -/
def pyInt? (s0 : Str) : Option ℤ :=
  let p := splitSign (strip s0)
  if p.2.isEmpty || !(p.2.all Char.isDigit) then none
  else some (p.1 * digitsToNat p.2)

/-- Ten to an integer power, as a rational. -/
def pow10 (e : ℤ) : ℚ :=
  if 0 ≤ e then Rat.divInt ((10 : ℤ) ^ e.toNat) 1 else Rat.divInt 1 ((10 : ℤ) ^ (-e).toNat)

/-- Parse the optional exponent suffix of a float literal: empty means
exponent 0; otherwise `e`/`E`, optional sign, at least one digit. -/
def expPart? : Str → Option ℤ
  | [] => some 0
  | c :: r =>
    if c == 'e' || c == 'E' then
      let p := splitSign r
      if p.2.isEmpty || !(p.2.all Char.isDigit) then none
      else some (p.1 * digitsToNat p.2)
    else none

/-- Python `float(s)` on decimal literals: strip whitespace, optional sign,
`digits [. digits]` or `. digits`, optional exponent.  The special values
`inf`/`nan` and underscore separators are outside the model; the resulting
value is kept as an exact rational. -/
def pyFloat? (s0 : Str) : Option ℚ :=
  let p := splitSign (strip s0)
  let ip := p.2.takeWhile Char.isDigit
  let rest := p.2.dropWhile Char.isDigit
  match rest with
  | '.' :: r =>
    let fp := r.takeWhile Char.isDigit
    let rest2 := r.dropWhile Char.isDigit
    if ip.isEmpty && fp.isEmpty then none
    else
      match expPart? rest2 with
      | some e => some (qMul (Rat.divInt (p.1 * digitsToNat (ip ++ fp)) ((10 : ℤ) ^ fp.length))
          (pow10 e))
      | none => none
  | rest2 =>
    if ip.isEmpty then none
    else
      match expPart? rest2 with
      | some e => some (qMul (Rat.divInt (p.1 * digitsToNat ip) 1) (pow10 e))
      | none => none

/-- Form fields of `POST /add`: each `request.form.get(...)` result, with an
absent field modelled as `""` (absent and empty are indistinguishable at
every use site: both are falsy, fail `float`, and are not in the kind
enumeration). -/
structure AddForm where
  tx_date : Str
  kind : Str
  category : Str
  amount : Str
  note : Str
deriving DecidableEq

/-- Result of a mutating request, as observed at the HTTP boundary. -/
inductive RequestOutcome where
  /-- Validation failed: `flash(..., "danger")` and redirect, nothing written. -/
  | errorRedirect
  /-- Row lookup failed: `flash("Not found.")` and redirect, nothing written. -/
  | notFound
  /-- Write committed, redirect to `index(year=tx_date[:4], month=int(tx_date[5:7]))`. -/
  | okRedirect (year : Str) (month : ℤ)
  /-- Write committed, but `int(tx_date[5:7])` raised while building the
  redirect, so an uncaught exception escapes after the row was stored. -/
  | exnAfterWrite
deriving DecidableEq

/-- The `add` handler: validates the amount (parse, round to 2 decimals,
reject negative) and the kind, defaults a blank category to `"General"` and a
blank date to today, inserts the row, then redirects to the month parsed from
`tx_date[:4]` and `tx_date[5:7]`. -/
def addTx (txs : List Txn) (nextId uid : Nat) (today : Str) (f : AddForm) :
    List Txn × RequestOutcome :=
  let tx_date := if f.tx_date.isEmpty then today else f.tx_date
  let category := if (strip f.category).isEmpty then generalK else strip f.category
  let note := strip f.note
  match pyFloat? f.amount with
  | none => (txs, .errorRedirect)
  | some x =>
    let amount := round2 x
    if amount < 0 then (txs, .errorRedirect)
    else if !(f.kind == incomeK || f.kind == expenseK) then (txs, .errorRedirect)
    else
      let txs' := txs ++ [⟨nextId, uid, tx_date, f.kind, category, amount, note⟩]
      match pyInt? ((tx_date.drop 5).take 2) with
      | some mth => (txs', .okRedirect (tx_date.take 4) mth)
      | none => (txs', .exnAfterWrite)

/-- Form fields of `POST /edit/<id>`, absent fields modelled as `""`. -/
structure EditForm where
  tx_date : Str
  kind : Str
  category : Str
  amount : Str
  note : Str
deriving DecidableEq

/-- Row lookup of the `edit` handler:
`SELECT * FROM transactions WHERE id = ? AND user_id = ?` (first match). -/
def findTx (txs : List Txn) (tx_id uid : Nat) : Option Txn :=
  txs.find? (fun t => t.id == tx_id && t.user_id == uid)

/-- The `edit` handler (POST): loads the owned row, falls back to stored
values for falsy submitted fields (`form.get(...) or row[...]`), re-validates
amount and kind, updates the row in place, then redirects like `add`.  The
submitted amount falls back to `str(row["amount"])`, which `float` parses
back to the same value, so the fallback is modelled by the stored rational
itself. -/
def editTx (txs : List Txn) (tx_id uid : Nat) (f : EditForm) : List Txn × RequestOutcome :=
  match findTx txs tx_id uid with
  | none => (txs, .notFound)
  | some row =>
    let tx_date := if f.tx_date.isEmpty then row.tx_date else f.tx_date
    let kind := if f.kind.isEmpty then row.kind else f.kind
    let cat0 := if f.category.isEmpty then row.category else f.category
    let category := if (strip cat0).isEmpty then generalK else strip cat0
    let note := strip (if f.note.isEmpty then row.note else f.note)
    match (if f.amount.isEmpty then some row.amount else pyFloat? f.amount) with
    | none => (txs, .errorRedirect)
    | some x =>
      let amount := round2 x
      if amount < 0 then (txs, .errorRedirect)
      else if !(kind == incomeK || kind == expenseK) then (txs, .errorRedirect)
      else
        let txs' := txs.map (fun t =>
          if t.id == tx_id && t.user_id == uid then
            { t with tx_date := tx_date, kind := kind, category := category,
                     amount := amount, note := note }
          else t)
        match pyInt? ((tx_date.drop 5).take 2) with
        | some mth => (txs', .okRedirect (tx_date.take 4) mth)
        | none => (txs', .exnAfterWrite)

/-- The `set_budget` upsert:
`INSERT INTO budgets ... ON CONFLICT(user_id, year, month) DO UPDATE SET
amount = excluded.amount` against the `(user_id, year, month)` primary key. -/
def upsertBudget (bs : List BudgetRow) (uid y m : Nat) (a : ℚ) : List BudgetRow :=
  if bs.any (fun b => b.user_id == uid && b.year == y && b.month == m) then
    bs.map (fun b =>
      if b.user_id == uid && b.year == y && b.month == m then { b with amount := a } else b)
  else bs ++ [⟨uid, y, m, a⟩]

/-- Number of budget rows stored under a given key. -/
def keyCount (bs : List BudgetRow) (uid y m : Nat) : Nat :=
  (bs.filter (fun b => b.user_id == uid && b.year == y && b.month == m)).length

/-- Key triple of a budget row, the `(user_id, year, month)` primary key. -/
def keyOf (b : BudgetRow) : Nat × Nat × Nat := (b.user_id, b.year, b.month)

/-- Literal `"Food"`. -/
def foodK : Str := "Food".toList

/-- Literal `"2024-03-01"`. -/
def dMar1 : Str := "2024-03-01".toList

/-- Literal `"2024-03-31"`. -/
def dMar31 : Str := "2024-03-31".toList

/-- Literal `"2024-03-10"`. -/
def dMar10 : Str := "2024-03-10".toList

/-- Fixture: a March-2024 budget of 3. -/
def budget3 : List BudgetRow := [⟨1, 2024, 3, Rat.divInt 3 1⟩]

/-- Fixture: a single March-2024 expense of 2. -/
def expense2 : List Txn := [⟨1, 1, dMar10, expenseK, foodK, Rat.divInt 2 1, []⟩]

/-- Fixture: a March-2024 budget of 500. -/
def budget500 : List BudgetRow := [⟨1, 2024, 3, Rat.divInt 500 1⟩]

/-- Fixture: a single March-2024 expense of 600. -/
def expense600 : List Txn := [⟨1, 1, dMar10, expenseK, foodK, Rat.divInt 600 1, []⟩]

/-- Fixture: two expense categories with equal totals. -/
def tieTxs : List Txn :=
  [⟨1, 1, dMar10, expenseK, "A".toList, Rat.divInt 10 1, []⟩,
   ⟨2, 1, "2024-03-11".toList, expenseK, "B".toList, Rat.divInt 10 1, []⟩]

/-- Fixture: a budget table holding one row for another user's key. -/
def oneBudget : List BudgetRow := [⟨2, 2024, 3, Rat.divInt 50 1⟩]

/-- Fixture: a date-from override with surrounding whitespace. -/
def paddedFrom : Str := " 2024-02-10 ".toList

/-- Fixture: a date-to override with trailing whitespace. -/
def paddedTo : Str := "2024-02-28 ".toList

/-- Fixture: an add form whose amount parses to the negative value −0.001. -/
def formNegTiny : AddForm := ⟨dMar10, expenseK, [], "-0.001".toList, []⟩

/-- Fixture: an add form whose amount is `"-5"`. -/
def formNeg5 : AddForm := ⟨dMar10, expenseK, [], "-5".toList, []⟩

/-- Fixture: one Food expense row. -/
def oneFood : List Txn := [⟨1, 1, dMar10, expenseK, foodK, Rat.divInt 5 1, []⟩]

/-- Fixture: a whitespace-only category query argument. -/
def spaceCat : Str := " ".toList

/-- Fixture: a transaction owned by user 1. -/
def rowA : Txn := ⟨1, 1, dMar10, incomeK, foodK, Rat.divInt 9 1, []⟩

/-- Fixture: a transaction owned by user 2. -/
def rowB : Txn := ⟨2, 2, dMar10, expenseK, foodK, Rat.divInt 4 1, []⟩

/-- Fixture: a stored transaction with a non-empty note. -/
def storedTx : Txn := ⟨5, 1, dMar10, incomeK, foodK, Rat.divInt 1 1, "hi".toList⟩

/-- Fixture: an edit form leaving every field blank. -/
def blankEdit : EditForm := ⟨[], [], [], [], []⟩

/-- Fixture: an edit form submitting a whitespace-only note. -/
def wsNoteEdit : EditForm := ⟨[], [], [], [], " ".toList⟩

/-- Fixture: an add form with the malformed date `"abc"`. -/
def formBadDate : AddForm := ⟨"abc".toList, incomeK, [], "5".toList, []⟩

/-! Helper lemmas: the executable arithmetic agrees with the ambient field
operations of `ℚ`, the insertion sort is a sorted permutation, and the
comparators used by the queries are total preorders. -/

theorem qAdd_eq (a b : ℚ) : qAdd a b = a + b := by
  have ha : ((a.den : ℚ)) ≠ 0 := by exact_mod_cast a.den_nz
  have hb : ((b.den : ℚ)) ≠ 0 := by exact_mod_cast b.den_nz
  rw [qAdd, Rat.divInt_eq_div]
  push_cast
  conv_rhs => rw [← Rat.num_div_den a, ← Rat.num_div_den b]
  rw [div_add_div _ _ ha hb]
  ring_nf

theorem qSub_eq (a b : ℚ) : qSub a b = a - b := by
  rw [qSub, qAdd_eq, sub_eq_add_neg]

theorem qMul_eq (a b : ℚ) : qMul a b = a * b := by
  rw [qMul, Rat.divInt_eq_div]
  push_cast
  conv_rhs => rw [← Rat.num_div_den a, ← Rat.num_div_den b]
  rw [div_mul_div_comm]

theorem qDiv_eq (a b : ℚ) : qDiv a b = a / b := by
  rw [qDiv, Rat.divInt_eq_div]
  push_cast
  conv_rhs => rw [← Rat.num_div_den a, ← Rat.num_div_den b]
  rw [div_div_eq_mul_div, div_mul_eq_mul_div, div_div]

theorem qsum_eq (l : List ℚ) : qsum l = l.sum := by
  induction l with
  | nil => rfl
  | cons x xs ih =>
    show qAdd x (qsum xs) = _
    rw [qAdd_eq, ih, List.sum_cons]

theorem qsum_nonneg {l : List ℚ} (h : ∀ x ∈ l, 0 ≤ x) : 0 ≤ qsum l := by
  rw [qsum_eq]; exact List.sum_nonneg h

theorem pyTrunc_eq_floor {x : ℚ} (h : 0 ≤ x) : pyTrunc x = ⌊x⌋ := by
  simp [pyTrunc, h]

theorem mem_insertBy {le : α → α → Bool} {x z : α} {l : List α} :
    z ∈ insertBy le x l ↔ z = x ∨ z ∈ l := by
  induction l with
  | nil => simp [insertBy]
  | cons y ys ih =>
    simp only [insertBy]
    split
    · simp
    · simp only [List.mem_cons, ih]
      tauto

theorem insertBy_perm (le : α → α → Bool) (x : α) (l : List α) :
    (insertBy le x l).Perm (x :: l) := by
  induction l with
  | nil => simp [insertBy]
  | cons y ys ih =>
    simp only [insertBy]
    split
    · exact .refl _
    · exact (ih.cons y).trans (List.Perm.swap x y ys)

theorem sortBy_perm (le : α → α → Bool) (l : List α) : (sortBy le l).Perm l := by
  induction l with
  | nil => exact .refl _
  | cons x xs ih => exact (insertBy_perm le x (sortBy le xs)).trans (ih.cons x)

theorem pairwise_insertBy {le : α → α → Bool}
    (htr : ∀ a b c, le a b = true → le b c = true → le a c = true)
    (hto : ∀ a b, le a b = true ∨ le b a = true)
    {x : α} {l : List α} (h : l.Pairwise (fun a b => le a b = true)) :
    (insertBy le x l).Pairwise (fun a b => le a b = true) := by
  induction l with
  | nil => simp [insertBy]
  | cons y ys ih =>
    rw [List.pairwise_cons] at h
    obtain ⟨hy, hys⟩ := h
    simp only [insertBy]
    split
    · rename_i hxy
      refine List.Pairwise.cons ?_ (List.Pairwise.cons hy hys)
      intro z hz
      rcases List.mem_cons.mp hz with rfl | hz'
      · exact hxy
      · exact htr _ _ _ hxy (hy z hz')
    · rename_i hxy
      have hyx : le y x = true := by
        rcases hto x y with h' | h'
        · exact absurd h' hxy
        · exact h'
      refine List.Pairwise.cons ?_ (ih hys)
      intro z hz
      rcases mem_insertBy.mp hz with rfl | hz'
      · exact hyx
      · exact hy z hz'

theorem pairwise_sortBy {le : α → α → Bool}
    (htr : ∀ a b c, le a b = true → le b c = true → le a c = true)
    (hto : ∀ a b, le a b = true ∨ le b a = true) (l : List α) :
    (sortBy le l).Pairwise (fun a b => le a b = true) := by
  induction l with
  | nil => exact .nil
  | cons x xs ih => exact pairwise_insertBy htr hto ih

theorem strLtB_irrefl (a : Str) : strLtB a a = false := by
  induction a with
  | nil => rfl
  | cons x xs ih => simp [strLtB, ih]

theorem strLtB_trans : ∀ {a b c : Str}, strLtB a b = true → strLtB b c = true → strLtB a c = true
  | [], [], _, h1, _ => by simp [strLtB] at h1
  | [], _ :: _, [], _, h2 => by simp [strLtB] at h2
  | [], _ :: _, _ :: _, _, _ => rfl
  | _ :: _, [], _, h1, _ => by simp [strLtB] at h1
  | _ :: _, _ :: _, [], _, h2 => by simp [strLtB] at h2
  | x :: xs, y :: ys, z :: zs, h1, h2 => by
    simp only [strLtB] at h1 h2 ⊢
    rcases lt_trichotomy x y with hxy | rfl | hxy
    · rcases lt_trichotomy y z with hyz | rfl | hyz
      · rw [if_pos (lt_trans hxy hyz)]
      · rw [if_pos hxy]
      · rw [if_neg (lt_asymm hyz), if_pos hyz] at h2
        exact absurd h2 (by decide)
    · rcases lt_trichotomy x z with hxz | rfl | hxz
      · rw [if_pos hxz]
      · rw [if_neg (lt_irrefl x), if_neg (lt_irrefl x)] at h1 h2 ⊢
        exact strLtB_trans h1 h2
      · rw [if_neg (lt_asymm hxz), if_pos hxz] at h2
        exact absurd h2 (by decide)
    · rw [if_neg (lt_asymm hxy), if_pos hxy] at h1
      exact absurd h1 (by decide)

theorem strLtB_conn : ∀ {a b : Str}, strLtB a b = false → strLtB b a = false → a = b
  | [], [], _, _ => rfl
  | [], _ :: _, h1, _ => by simp [strLtB] at h1
  | _ :: _, [], _, h2 => by simp [strLtB] at h2
  | x :: xs, y :: ys, h1, h2 => by
    simp only [strLtB] at h1 h2
    rcases lt_trichotomy x y with hxy | rfl | hxy
    · rw [if_pos hxy] at h1
      exact absurd h1 (by decide)
    · rw [if_neg (lt_irrefl x), if_neg (lt_irrefl x)] at h1 h2
      rw [strLtB_conn h1 h2]
    · rw [if_pos hxy] at h2
      exact absurd h2 (by decide)

theorem strLtB_asymm {a b : Str} (h : strLtB a b = true) : strLtB b a = false := by
  by_contra h'
  have hba : strLtB b a = true := by
    cases hb : strLtB b a
    · exact absurd hb h'
    · rfl
  have := strLtB_trans h hba
  rw [strLtB_irrefl] at this
  exact Bool.false_ne_true this

theorem ascLe_trans (s t u : Txn) (h1 : ascLe s t = true) (h2 : ascLe t u = true) :
    ascLe s u = true := by
  simp only [ascLe, Bool.or_eq_true, Bool.and_eq_true, beq_iff_eq, decide_eq_true_eq] at h1 h2 ⊢
  rcases h1 with h1 | ⟨h1e, h1i⟩
  · rcases h2 with h2 | ⟨h2e, h2i⟩
    · exact Or.inl (strLtB_trans h1 h2)
    · exact Or.inl (h2e ▸ h1)
  · rcases h2 with h2 | ⟨h2e, h2i⟩
    · exact Or.inl (h1e ▸ h2)
    · exact Or.inr ⟨h1e.trans h2e, le_trans h1i h2i⟩

theorem ascLe_total (s t : Txn) : ascLe s t = true ∨ ascLe t s = true := by
  simp only [ascLe, Bool.or_eq_true, Bool.and_eq_true, beq_iff_eq, decide_eq_true_eq]
  cases hst : strLtB s.tx_date t.tx_date
  · cases hts : strLtB t.tx_date s.tx_date
    · have he : s.tx_date = t.tx_date := strLtB_conn hst hts
      rcases Nat.le_total s.id t.id with hi | hi
      · exact Or.inl (Or.inr ⟨he, hi⟩)
      · exact Or.inr (Or.inr ⟨he.symm, hi⟩)
    · exact Or.inr (Or.inl rfl)
  · exact Or.inl (Or.inl rfl)

theorem beq_comm_str (a b : Str) : (a == b) = (b == a) := by
  by_cases h : a = b
  · rw [h]
  · rw [beq_eq_false_iff_ne.mpr h, beq_eq_false_iff_ne.mpr (Ne.symm h)]

theorem descLe_eq_ascLe (s t : Txn) : descLe s t = ascLe t s := by
  unfold descLe ascLe
  rw [beq_comm_str s.tx_date t.tx_date]

theorem descLe_trans (s t u : Txn) (h1 : descLe s t = true) (h2 : descLe t u = true) :
    descLe s u = true := by
  rw [descLe_eq_ascLe] at h1 h2 ⊢
  exact ascLe_trans u t s h2 h1

theorem descLe_total (s t : Txn) : descLe s t = true ∨ descLe t s = true := by
  rw [descLe_eq_ascLe, descLe_eq_ascLe]
  exact ascLe_total t s

theorem totDescLe_trans (a b c : Str × ℚ) (h1 : totDescLe a b = true) (h2 : totDescLe b c = true) :
    totDescLe a c = true := by
  simp only [totDescLe, decide_eq_true_eq] at h1 h2 ⊢
  exact le_trans h2 h1

theorem totDescLe_total (a b : Str × ℚ) : totDescLe a b = true ∨ totDescLe b a = true := by
  simp only [totDescLe, decide_eq_true_eq]
  exact le_total b.2 a.2

theorem filter_user_comm (p : Txn → Bool) (uid : Nat) (txs : List Txn) :
    txs.filter (fun t => (t.user_id == uid) && p t) =
      (txs.filter (fun t => t.user_id == uid)).filter p := by
  rw [List.filter_filter]
  exact List.filter_congr fun t _ => Bool.and_comm _ _

theorem divInt_hundred_one : Rat.divInt 100 1 = (100 : ℚ) := by
  norm_num [Rat.divInt_eq_div]

theorem rndHalfEven_nonneg {x : ℚ} (h : 0 ≤ x) : 0 ≤ rndHalfEven x := by
  have hf : (0 : ℤ) ≤ ⌊x⌋ := Int.floor_nonneg.mpr h
  unfold rndHalfEven
  dsimp only
  split
  · exact hf
  split
  · omega
  split
  · exact hf
  · omega

theorem round2_nonneg {x : ℚ} (h : 0 ≤ x) : 0 ≤ round2 x := by
  unfold round2
  rw [Rat.divInt_eq_div]
  have h1 : (0 : ℚ) ≤ ((rndHalfEven (qMul x (Rat.divInt 100 1))) : ℚ) := by
    have := rndHalfEven_nonneg (x := qMul x (Rat.divInt 100 1))
      (by rw [qMul_eq, divInt_hundred_one]; positivity)
    exact_mod_cast this
  positivity

theorem filter_map_key (p : BudgetRow → Bool) (f : BudgetRow → BudgetRow)
    (hf : ∀ b, p (f b) = p b) :
    ∀ bs : List BudgetRow, (bs.map f).filter p = (bs.filter p).map f := by
  intro bs
  induction bs with
  | nil => rfl
  | cons b bs ih =>
    rw [List.map_cons, List.filter_cons, List.filter_cons, hf]
    split
    · rw [List.map_cons, ih]
    · exact ih

theorem keyCount_pos_of_any {bs : List BudgetRow} {uid y m : Nat}
    (h : bs.any (fun b => b.user_id == uid && b.year == y && b.month == m) = true) :
    1 ≤ keyCount bs uid y m := by
  rw [List.any_eq_true] at h
  obtain ⟨b, hb, hbp⟩ := h
  exact List.length_pos_of_mem (List.mem_filter.mpr ⟨hb, hbp⟩)

theorem keyCount_zero_of_not_any {bs : List BudgetRow} {uid y m : Nat}
    (h : bs.any (fun b => b.user_id == uid && b.year == y && b.month == m) = false) :
    keyCount bs uid y m = 0 := by
  unfold keyCount
  rw [List.length_eq_zero, List.filter_eq_nil_iff]
  intro b hb
  rw [List.any_eq_false] at h
  exact h b hb

theorem key_pred_iff (b : BudgetRow) (uid y m : Nat) :
    (b.user_id == uid && b.year == y && b.month == m) = true ↔ keyOf b = (uid, y, m) := by
  simp only [Bool.and_eq_true, beq_iff_eq, keyOf, Prod.mk.injEq]
  tauto

theorem keyCount_le_one {bs : List BudgetRow} (h : (bs.map keyOf).Nodup) (u y m : Nat) :
    keyCount bs u y m ≤ 1 := by
  induction bs with
  | nil => simp [keyCount]
  | cons b bs ih =>
    rw [List.map_cons, List.nodup_cons] at h
    obtain ⟨hnotin, hnd⟩ := h
    unfold keyCount at ih ⊢
    rw [List.filter_cons]
    split
    · rename_i hp
      have hk : keyOf b = (u, y, m) := (key_pred_iff b u y m).mp hp
      rw [List.length_cons]
      have h0 : (bs.filter (fun r => r.user_id == u && r.year == y && r.month == m)).length = 0 := by
        rw [List.length_eq_zero, List.filter_eq_nil_iff]
        intro r hr hpr
        have hkr : keyOf r = (u, y, m) := (key_pred_iff r u y m).mp hpr
        exact hnotin (hk ▸ hkr ▸ List.mem_map_of_mem keyOf hr)
      omega
    · exact ih hnd

theorem parse_filters_eq_current (y m : Nat) (a b c : Str) :
    parse_filters y m a b c =
      ((current_filters_or_month y m a b).1, (current_filters_or_month y m a b).2, strip c) := by
  simp only [parse_filters, current_filters_or_month]
  split <;> rfl

theorem indexFiltered_congr {txs txs' : List Txn} {uid : Nat}
    (h : txs.filter (fun t => t.user_id == uid) = txs'.filter (fun t => t.user_id == uid))
    (df dt c : Str) :
    txs.filter (indexPred uid df dt c) = txs'.filter (indexPred uid df dt c) := by
  have e : ∀ l : List Txn, l.filter (indexPred uid df dt c) =
      (l.filter (fun t => t.user_id == uid)).filter
        (fun t => strLeB df t.tx_date && strLeB t.tx_date dt &&
          (c.isEmpty || t.category == c)) := by
    intro l
    rw [← filter_user_comm]
    exact List.filter_congr fun t _ => rfl
  rw [e, e, h]

/-- Claim C1: for every state of the transactions store and every resolved
date range and optional category filter, the reported balance equals the
income total minus the expense total; and when no rows match the filters,
both totals and the balance are 0. -/
theorem C1_balance_identity (txs : List Txn) (uid : Nat) (df dt rawCat : Str) :
    balance txs uid df dt rawCat =
      incomeTotal txs uid df dt rawCat - expenseTotal txs uid df dt rawCat ∧
    (indexFiltered txs uid df dt rawCat = [] →
      incomeTotal txs uid df dt rawCat = 0 ∧ expenseTotal txs uid df dt rawCat = 0 ∧
      balance txs uid df dt rawCat = 0) := by
  constructor
  · unfold balance
    rw [qSub_eq]
  · intro h
    refine ⟨?_, ?_, ?_⟩
    · unfold incomeTotal
      rw [h]
      decide
    · unfold expenseTotal
      rw [h]
      decide
    · unfold balance incomeTotal expenseTotal
      rw [h]
      decide

/-- Witness for C1 at a concrete empty store: both totals and the balance
evaluate to 0 when nothing matches. -/
theorem C1_balance_identity_witness :
    incomeTotal [] 1 dMar1 dMar31 [] = 0 ∧ expenseTotal [] 1 dMar1 dMar31 [] = 0 ∧
    balance [] 1 dMar1 dMar31 [] = 0 :=
  (C1_balance_identity [] 1 dMar1 dMar31 []).2 rfl

/-- Claim C5 as stated is false: the resolver does not return a present
override verbatim — it strips surrounding whitespace first.  With
`date_from = " 2024-02-10 "` (non-empty after trimming) the resolved
`date_from` differs from the submitted value. -/
theorem C5_counterexample :
    ((strip paddedFrom).isEmpty = false ∧ (strip paddedTo).isEmpty = false) ∧
    (parse_filters 2024 2 paddedFrom paddedTo []).1 ≠ paddedFrom := by
  exact ⟨⟨by decide, by decide⟩, by decide⟩

/-- Claim C5 (amended): when both override dates are non-empty after
trimming, the resolver returns the **trimmed** override dates (verbatim only
when they carry no surrounding whitespace); otherwise it returns the first
and last calendar day of the requested month, whose length follows the
Gregorian leap-year rule. -/
theorem C5_filter_resolution (y m : Nat) (argDF argDT argCat : Str) :
    ((strip argDF).isEmpty = false → (strip argDT).isEmpty = false →
      parse_filters y m argDF argDT argCat = (strip argDF, strip argDT, strip argCat)) ∧
    ((strip argDF).isEmpty = true ∨ (strip argDT).isEmpty = true →
      parse_filters y m argDF argDT argCat =
        (isoDate y m 1, isoDate y m (daysInMonth y m), strip argCat)) ∧
    (isLeap y = true → daysInMonth y 2 = 29) ∧
    (isLeap y = false → daysInMonth y 2 = 28) := by
  refine ⟨?_, ?_, ?_, ?_⟩
  · intro h1 h2
    have hc : ((strip argDF).isEmpty || (strip argDT).isEmpty) = false := by
      rw [h1, h2]
      rfl
    simp [parse_filters, hc]
  · intro h
    have hc : ((strip argDF).isEmpty || (strip argDT).isEmpty) = true := by
      rcases h with h | h <;> simp [h]
    simp [parse_filters, month_bounds, hc]
  · intro h
    simp [daysInMonth, h]
  · intro h
    simp [daysInMonth, h]

/-- Witness for C5: a padded override resolves to its trimmed value, and the
empty override for February 2024 resolves to the leap-year month bounds
`2024-02-01 .. 2024-02-29`. -/
theorem C5_filter_resolution_witness :
    parse_filters 2024 2 paddedFrom paddedTo [] =
      ("2024-02-10".toList, "2024-02-28".toList, []) ∧
    parse_filters 2024 2 [] [] [] =
      ("2024-02-01".toList, "2024-02-29".toList, []) := by
  constructor
  · exact ((C5_filter_resolution 2024 2 paddedFrom paddedTo []).1
      (by decide) (by decide)).trans (by decide)
  · exact ((C5_filter_resolution 2024 2 [] [] []).2.1 (Or.inl (by decide))).trans (by decide)

/-- Claim C6 as stated is false: an amount that parses to the negative value
−0.001 is **not** rejected — the handler validates the value only after
rounding to 2 decimals, `round(-0.001, 2)` is −0.0, and the row is inserted
(with amount 0). -/
theorem C6_counterexample :
    pyFloat? formNegTiny.amount = some (Rat.divInt (-1) 1000) ∧
    Rat.divInt (-1) 1000 < 0 ∧
    (addTx [] 1 1 dMar10 formNegTiny).1 =
      [⟨1, 1, dMar10, expenseK, generalK, 0, []⟩] ∧
    (addTx [] 1 1 dMar10 formNegTiny).2 = RequestOutcome.okRedirect ("2024".toList) 3 := by
  exact ⟨by decide, by decide, by decide, by decide⟩

/-- Claim C6 (amended): the add operation writes no row and redirects with an
error indicator whenever the amount fails to parse, whenever the amount
**rounded to 2 decimals** is negative (rather than the parsed value itself),
and whenever the kind is not `income`/`expense`; on valid input the stored
amount is the parsed value rounded to 2 decimals and a blank category is
stored as `"General"`. -/
theorem C6_add_validation (txs : List Txn) (nextId uid : Nat) (today : Str) (f : AddForm) :
    (pyFloat? f.amount = none →
      addTx txs nextId uid today f = (txs, RequestOutcome.errorRedirect)) ∧
    (∀ x, pyFloat? f.amount = some x → round2 x < 0 →
      addTx txs nextId uid today f = (txs, RequestOutcome.errorRedirect)) ∧
    ((f.kind == incomeK || f.kind == expenseK) = false →
      addTx txs nextId uid today f = (txs, RequestOutcome.errorRedirect)) ∧
    (∀ x, pyFloat? f.amount = some x → 0 ≤ round2 x →
      (f.kind == incomeK || f.kind == expenseK) = true →
      (addTx txs nextId uid today f).1 = txs ++
        [⟨nextId, uid, if f.tx_date.isEmpty then today else f.tx_date, f.kind,
          if (strip f.category).isEmpty then generalK else strip f.category,
          round2 x, strip f.note⟩]) := by
  refine ⟨?_, ?_, ?_, ?_⟩
  · intro h
    simp [addTx, h]
  · intro x hx hneg
    simp [addTx, hx, hneg]
  · intro hk
    cases hx : pyFloat? f.amount with
    | none => simp [addTx, hx]
    | some x =>
      by_cases hneg : round2 x < 0
      · simp [addTx, hx, hneg]
      · simp [addTx, hx, hneg, hk]
  · intro x hx hnn hk
    have hneg : ¬ round2 x < 0 := not_lt.mpr hnn
    simp only [addTx, hx, if_neg hneg, hk, Bool.not_true, Bool.false_eq_true, if_false]
    cases hm : pyInt? (((if f.tx_date.isEmpty then today else f.tx_date).drop 5).take 2) with
    | none => simp [hm]
    | some mth => simp [hm]

/-- Witness for C6: the spec's own scenario — amount `"-5"` is rejected, no
row is inserted, and the handler redirects with the error indicator. -/
theorem C6_add_validation_witness :
    addTx [] 1 1 dMar10 formNeg5 = ([], RequestOutcome.errorRedirect) :=
  (C6_add_validation [] 1 1 dMar10 formNeg5).2.1 (Rat.divInt (-5) 1) (by decide) (by decide)

/-- Claim C10: the add operation performs no validation on the date — any
non-empty submitted `tx_date` is stored verbatim — and the post-write
redirect parses `tx_date[:4]` as the year and `int(tx_date[5:7])` as the
month, so when that slice is not a valid integer the row is written and the
redirect step raises an uncaught exception. -/
theorem C10_add_stores_date_verbatim (txs : List Txn) (nextId uid : Nat) (today : Str)
    (f : AddForm) (x : ℚ) (hx : pyFloat? f.amount = some x) (hnn : 0 ≤ round2 x)
    (hk : (f.kind == incomeK || f.kind == expenseK) = true) (hd : f.tx_date.isEmpty = false) :
    ((addTx txs nextId uid today f).1 = txs ++
      [⟨nextId, uid, f.tx_date, f.kind,
        if (strip f.category).isEmpty then generalK else strip f.category,
        round2 x, strip f.note⟩]) ∧
    (pyInt? ((f.tx_date.drop 5).take 2) = none →
      (addTx txs nextId uid today f).2 = RequestOutcome.exnAfterWrite) ∧
    (∀ mth, pyInt? ((f.tx_date.drop 5).take 2) = some mth →
      (addTx txs nextId uid today f).2 = RequestOutcome.okRedirect (f.tx_date.take 4) mth) := by
  have hneg : ¬ round2 x < 0 := not_lt.mpr hnn
  have hde : (if f.tx_date.isEmpty then today else f.tx_date) = f.tx_date := by
    rw [hd]
    rfl
  refine ⟨?_, ?_, ?_⟩
  · simp only [addTx, hx, if_neg hneg, hk, Bool.not_true, Bool.false_eq_true, if_false, hde]
    cases hm : pyInt? ((f.tx_date.drop 5).take 2) with
    | none => simp [hm]
    | some mth => simp [hm]
  · intro hm
    have hd' : ¬ f.tx_date = [] := by simpa using hd
    simp [addTx, hx, hneg, hk, hd', hm]
  · intro mth hm
    have hd' : ¬ f.tx_date = [] := by simpa using hd
    simp [addTx, hx, hneg, hk, hd', hm]

/-- Witness for C10: submitting `tx_date = "abc"` (with a valid amount and
kind) stores the malformed date verbatim and then dies building the
redirect: the row is committed and an exception escapes. -/
theorem C10_add_stores_date_verbatim_witness :
    (addTx [] 1 1 dMar10 formBadDate).1 =
      [⟨1, 1, "abc".toList, incomeK, generalK, Rat.divInt 5 1, []⟩] ∧
    (addTx [] 1 1 dMar10 formBadDate).2 = RequestOutcome.exnAfterWrite := by
  have h := C10_add_stores_date_verbatim [] 1 1 dMar10 formBadDate (Rat.divInt 5 1)
    (by decide) (by decide) (by decide) (by decide)
  exact ⟨h.1.trans (by decide), h.2.1 (by decide)⟩

/-- Claim C2 as stated is false: the handler computes the percentage with
Python `int(...)`, which truncates, not with `round`.  With budget 3 and
expense 2 the code reports 66 while `min(100, round(expense / budget × 100))`
is 67. -/
theorem C2_counterexample :
    progressPct budget3 expense2 1 2024 3 dMar1 dMar31 [] = some 66 ∧
    min 100 (round (expenseTotal expense2 1 dMar1 dMar31 [] /
      budgetAmount budget3 1 2024 3 * 100)) = 67 := by
  constructor
  · decide
  · have he : expenseTotal expense2 1 dMar1 dMar31 [] = 2 := by decide
    have hb : budgetAmount budget3 1 2024 3 = 3 := by decide
    rw [he, hb, show ((2 : ℚ) / 3 * 100) = 200 / 3 by ring]
    norm_num [round_eq]

/-- Claim C2 (amended): with a positive budget the progress percentage equals
`min(100, ⌊expense / budget × 100⌋)` — the fraction is truncated, not
rounded — and always lies in [0, 100], and the remaining value is
budget − expense; with a zero (or absent, hence 0) budget the progress
percentage and the remaining value are both absent and no division occurs. -/
theorem C2_progress_truncation (bs : List BudgetRow) (txs : List Txn) (uid y m : Nat)
    (df dt rawCat : Str) (hamt : ∀ t ∈ txs, 0 ≤ t.amount) :
    (0 < budgetAmount bs uid y m →
      progressPct bs txs uid y m df dt rawCat =
        some (min 100 ⌊expenseTotal txs uid df dt rawCat / budgetAmount bs uid y m * 100⌋) ∧
      (∀ p, progressPct bs txs uid y m df dt rawCat = some p → 0 ≤ p ∧ p ≤ 100) ∧
      remaining bs txs uid y m df dt rawCat =
        some (budgetAmount bs uid y m - expenseTotal txs uid df dt rawCat)) ∧
    (¬ 0 < budgetAmount bs uid y m →
      progressPct bs txs uid y m df dt rawCat = none ∧
      remaining bs txs uid y m df dt rawCat = none) := by
  have he0 : 0 ≤ expenseTotal txs uid df dt rawCat := by
    unfold expenseTotal
    apply qsum_nonneg
    intro q hq
    obtain ⟨t, ht, rfl⟩ := List.mem_map.mp hq
    have ht1 : t ∈ indexFiltered txs uid df dt rawCat := (List.mem_filter.mp ht).1
    unfold indexFiltered at ht1
    exact hamt t (List.mem_filter.mp ht1).1
  constructor
  · intro hb
    have hx0 : 0 ≤ expenseTotal txs uid df dt rawCat / budgetAmount bs uid y m * 100 :=
      mul_nonneg (div_nonneg he0 (le_of_lt hb)) (by norm_num)
    have hmin0 : 0 ≤ min (100 : ℚ)
        (expenseTotal txs uid df dt rawCat / budgetAmount bs uid y m * 100) :=
      le_min (by norm_num) hx0
    have hkey : progressPct bs txs uid y m df dt rawCat =
        some (min 100 ⌊expenseTotal txs uid df dt rawCat / budgetAmount bs uid y m * 100⌋) := by
      unfold progressPct
      rw [if_pos hb, qMul_eq, qDiv_eq, divInt_hundred_one, pyTrunc_eq_floor hmin0]
      congr 1
      rcases le_total (100 : ℚ)
          (expenseTotal txs uid df dt rawCat / budgetAmount bs uid y m * 100) with h | h
      · rw [min_eq_left h, min_eq_left (Int.le_floor.mpr (by exact_mod_cast h))]
        norm_num
      · rw [min_eq_right h, min_eq_right]
        have h2 : ⌊expenseTotal txs uid df dt rawCat / budgetAmount bs uid y m * 100⌋ ≤
            ⌊(100 : ℚ)⌋ := Int.floor_le_floor h
        simpa using h2
    refine ⟨hkey, ?_, ?_⟩
    · intro p hp
      rw [hkey] at hp
      obtain rfl := Option.some.inj hp
      exact ⟨le_min (by norm_num) (Int.floor_nonneg.mpr hx0), min_le_left _ _⟩
    · unfold remaining
      rw [if_pos hb, qSub_eq]
  · intro hb
    constructor
    · unfold progressPct
      rw [if_neg hb]
    · unfold remaining
      rw [if_neg hb]

/-- Witness for C2 at the spec's own scenario (budget 500, expenses 600):
the progress percentage is computed, lies in [0, 100], and the remaining
value is budget − expense (= −100). -/
theorem C2_progress_truncation_witness :
    progressPct budget500 expense600 1 2024 3 dMar1 dMar31 [] =
      some (min 100 ⌊expenseTotal expense600 1 dMar1 dMar31 [] /
        budgetAmount budget500 1 2024 3 * 100⌋) ∧
    (∀ p, progressPct budget500 expense600 1 2024 3 dMar1 dMar31 [] = some p →
      0 ≤ p ∧ p ≤ 100) ∧
    remaining budget500 expense600 1 2024 3 dMar1 dMar31 [] =
      some (budgetAmount budget500 1 2024 3 - expenseTotal expense600 1 dMar1 dMar31 []) :=
  (C2_progress_truncation budget500 expense600 1 2024 3 dMar1 dMar31 []
    (by decide)).1 (by decide)

/-- Claim C3 as stated is false: `ORDER BY total DESC` is not strict — two
categories with equal expense totals both appear in the breakdown, which is
then not strictly descending. -/
theorem C3_counterexample :
    catBreakdown tieTxs 1 dMar1 dMar31 [] =
      [("A".toList, Rat.divInt 10 1), ("B".toList, Rat.divInt 10 1)] ∧
    ¬ (catBreakdown tieTxs 1 dMar1 dMar31 []).Pairwise (fun a b => b.2 < a.2) := by
  exact ⟨by decide, by decide⟩

/-- Claim C3 (amended): every entry of the category breakdown has a strictly
positive total, and the breakdown is sorted in descending (non-increasing,
ties permitted) order of total. -/
theorem C3_breakdown_positive_sorted (txs : List Txn) (uid : Nat) (df dt rawCat : Str) :
    (∀ p ∈ catBreakdown txs uid df dt rawCat, 0 < p.2) ∧
    (catBreakdown txs uid df dt rawCat).Pairwise (fun a b => b.2 ≤ a.2) := by
  constructor
  · intro p hp
    unfold catBreakdown at hp
    have hp' := (sortBy_perm totDescLe _).mem_iff.mp hp
    have hmem := List.mem_filter.mp hp'
    simpa using hmem.2
  · unfold catBreakdown
    refine (pairwise_sortBy totDescLe_trans totDescLe_total _).imp ?_
    intro a b h
    simpa [totDescLe] using h

/-- Witness for C3 at a concrete store with one Food expense: the breakdown
entries are positive and descending. -/
theorem C3_breakdown_positive_sorted_witness :
    (∀ p ∈ catBreakdown expense600 1 dMar1 dMar31 [], 0 < p.2) ∧
    (catBreakdown expense600 1 dMar1 dMar31 []).Pairwise (fun a b => b.2 ≤ a.2) :=
  C3_breakdown_positive_sorted expense600 1 dMar1 dMar31 []

theorem upsert_eq_map (bs : List BudgetRow) (uid y m : Nat) (a : ℚ)
    (h : bs.any (fun b => b.user_id == uid && b.year == y && b.month == m) = true) :
    upsertBudget bs uid y m a = bs.map (fun b =>
      if b.user_id == uid && b.year == y && b.month == m then { b with amount := a } else b) := by
  unfold upsertBudget
  rw [if_pos h]

theorem upsert_eq_append (bs : List BudgetRow) (uid y m : Nat) (a : ℚ)
    (h : bs.any (fun b => b.user_id == uid && b.year == y && b.month == m) = false) :
    upsertBudget bs uid y m a = bs ++ [⟨uid, y, m, a⟩] := by
  unfold upsertBudget
  rw [if_neg]
  rw [h]
  exact Bool.false_ne_true

theorem upd_pred_eq (uid y m : Nat) (a : ℚ) (b : BudgetRow) :
    ((fun r => r.user_id == uid && r.year == y && r.month == m)
      (if b.user_id == uid && b.year == y && b.month == m then { b with amount := a } else b)) =
    (b.user_id == uid && b.year == y && b.month == m) := by
  by_cases h : (b.user_id == uid && b.year == y && b.month == m) = true
  · rw [if_pos h]
  · rw [if_neg h]

/-- Claim C4: the budget upsert leaves exactly one stored row for the
`(owner, year, month)` key, holding the new amount (replacing any prior
amount); the one-row-per-key primary-key invariant is preserved (no
duplicates are ever created); and performing the same upsert twice equals
performing it once. -/
theorem C4_budget_upsert (bs : List BudgetRow) (uid y m : Nat) (a : ℚ)
    (hinv : (bs.map keyOf).Nodup) :
    keyCount (upsertBudget bs uid y m a) uid y m = 1 ∧
    (∀ r ∈ upsertBudget bs uid y m a, keyOf r = (uid, y, m) → r.amount = a) ∧
    ((upsertBudget bs uid y m a).map keyOf).Nodup ∧
    upsertBudget (upsertBudget bs uid y m a) uid y m a = upsertBudget bs uid y m a := by
  by_cases hany : bs.any (fun b => b.user_id == uid && b.year == y && b.month == m) = true
  · rw [upsert_eq_map bs uid y m a hany]
    have hfk := filter_map_key (fun b => b.user_id == uid && b.year == y && b.month == m)
      (fun b => if b.user_id == uid && b.year == y && b.month == m then
        { b with amount := a } else b) (upd_pred_eq uid y m a) bs
    have hcomp : ((fun r : BudgetRow => r.user_id == uid && r.year == y && r.month == m) ∘
        (fun b : BudgetRow => if b.user_id == uid && b.year == y && b.month == m then
          { b with amount := a } else b)) =
        (fun b : BudgetRow => b.user_id == uid && b.year == y && b.month == m) :=
      funext (upd_pred_eq uid y m a)
    refine ⟨?_, ?_, ?_, ?_⟩
    · unfold keyCount
      rw [hfk, List.length_map]
      have h1 := keyCount_pos_of_any hany
      have h2 := keyCount_le_one hinv uid y m
      unfold keyCount at h1 h2
      omega
    · intro r hr hkey
      obtain ⟨b, hb, rfl⟩ := List.mem_map.mp hr
      by_cases hp : (b.user_id == uid && b.year == y && b.month == m) = true
      · rw [if_pos hp]
      · rw [if_neg hp] at hkey ⊢
        exact absurd ((key_pred_iff b uid y m).mpr hkey) hp
    · rw [List.map_map]
      have hko : (keyOf ∘ (fun b => if b.user_id == uid && b.year == y && b.month == m then
          { b with amount := a } else b)) = keyOf := by
        funext b
        by_cases hp : (b.user_id == uid && b.year == y && b.month == m) = true
        · simp only [Function.comp_apply, if_pos hp]
          rfl
        · simp only [Function.comp_apply, if_neg hp]
      rw [hko]
      exact hinv
    · have hany2 : ((bs.map (fun b =>
          if b.user_id == uid && b.year == y && b.month == m then
            { b with amount := a } else b)).any
          (fun b => b.user_id == uid && b.year == y && b.month == m)) = true := by
        rw [List.any_map, hcomp]
        exact hany
      rw [upsert_eq_map _ uid y m a hany2, List.map_map]
      have hff : ((fun b : BudgetRow => if b.user_id == uid && b.year == y && b.month == m then
          { b with amount := a } else b) ∘
          (fun b : BudgetRow => if b.user_id == uid && b.year == y && b.month == m then
            { b with amount := a } else b)) =
          (fun b : BudgetRow => if b.user_id == uid && b.year == y && b.month == m then
            { b with amount := a } else b) := by
        funext b
        by_cases hp : (b.user_id == uid && b.year == y && b.month == m) = true
        · simp only [Function.comp_apply, if_pos hp]
        · simp only [Function.comp_apply, if_neg hp, if_neg hp]
      rw [hff]
  · have hany' : bs.any (fun b => b.user_id == uid && b.year == y && b.month == m) = false := by
      revert hany
      cases bs.any (fun b => b.user_id == uid && b.year == y && b.month == m) <;> simp
    have hkz := keyCount_zero_of_not_any hany'
    have hnotin : (uid, y, m) ∉ bs.map keyOf := by
      intro hmem
      obtain ⟨b, hb, hkb⟩ := List.mem_map.mp hmem
      rw [List.any_eq_false] at hany'
      exact hany' b hb ((key_pred_iff b uid y m).mpr hkb)
    rw [upsert_eq_append bs uid y m a hany']
    refine ⟨?_, ?_, ?_, ?_⟩
    · unfold keyCount at hkz ⊢
      rw [List.filter_append, List.length_append, hkz]
      simp
    · intro r hr hkey
      rcases List.mem_append.mp hr with hrb | hrn
      · rw [List.any_eq_false] at hany'
        exact absurd ((key_pred_iff r uid y m).mpr hkey) (hany' r hrb)
      · rw [List.mem_singleton] at hrn
        subst hrn
        rfl
    · rw [List.map_append, List.nodup_append]
      refine ⟨hinv, List.nodup_singleton _, ?_⟩
      intro x hx hx2
      simp only [List.map_cons, List.map_nil, List.mem_singleton, keyOf] at hx2
      subst hx2
      exact hnotin hx
    · have hanyA : ((bs ++ [(⟨uid, y, m, a⟩ : BudgetRow)]).any
          (fun b => b.user_id == uid && b.year == y && b.month == m)) = true := by
        rw [List.any_append, hany']
        simp
      rw [upsert_eq_map _ uid y m a hanyA, List.map_append]
      congr 1
      · conv_rhs => rw [← List.map_id bs]
        apply List.map_congr_left
        intro b hb
        rw [List.any_eq_false] at hany'
        rw [if_neg (hany' b hb)]
        rfl
      · simp

/-- Witness for C4: upserting `(1, 2024, 3) ↦ 200` into a store holding only
another user's row yields exactly one row for the key, carrying 200, with the
invariant intact and the operation idempotent. -/
theorem C4_budget_upsert_witness :
    keyCount (upsertBudget oneBudget 1 2024 3 (Rat.divInt 200 1)) 1 2024 3 = 1 ∧
    (∀ r ∈ upsertBudget oneBudget 1 2024 3 (Rat.divInt 200 1),
      keyOf r = (1, 2024, 3) → r.amount = Rat.divInt 200 1) ∧
    ((upsertBudget oneBudget 1 2024 3 (Rat.divInt 200 1)).map keyOf).Nodup ∧
    upsertBudget (upsertBudget oneBudget 1 2024 3 (Rat.divInt 200 1)) 1 2024 3
        (Rat.divInt 200 1) =
      upsertBudget oneBudget 1 2024 3 (Rat.divInt 200 1) :=
  C4_budget_upsert oneBudget 1 2024 3 (Rat.divInt 200 1) (by decide)

/-- Claim C7 as stated is false: the listing filters on the raw category
query argument while the exporters filter on the trimmed one.  For the
whitespace-only category query `" "` the listing is empty while the export
still contains the stored row, so the row sets differ. -/
theorem C7_counterexample :
    indexListing oneFood 1 2024 3 [] [] spaceCat = [] ∧
    exportRows oneFood 1 2024 3 [] [] spaceCat = oneFood ∧
    ¬ (exportRows oneFood 1 2024 3 [] [] spaceCat).Perm
        (indexListing oneFood 1 2024 3 [] [] spaceCat) := by
  refine ⟨by decide, by decide, ?_⟩
  intro h
  have hl := h.length_eq
  revert hl
  decide

/-- Claim C7 (amended): whenever the category query argument equals its own
trimmed form (in particular when absent or a clean label), the export row set
is a permutation of the listing's row set for the same query, export rows are
ordered by ascending date then ascending identifier, the CSV serializes each
row with the amount formatted to 2 decimals, and the spreadsheet serializes
the same rows with the amount as a numeric cell. -/
theorem C7_export_matches_listing (txs : List Txn) (uid y m : Nat)
    (argDF argDT argCat : Str) (hcat : strip argCat = argCat) :
    (exportRows txs uid y m argDF argDT argCat).Perm
      (indexListing txs uid y m argDF argDT argCat) ∧
    (exportRows txs uid y m argDF argDT argCat).Pairwise (fun s t => ascLe s t = true) ∧
    csvDataLines txs uid y m argDF argDT argCat =
      (exportRows txs uid y m argDF argDT argCat).map
        (fun t => [t.tx_date, t.kind, t.category, fmt2 t.amount, t.note]) ∧
    xlsxDataRows txs uid y m argDF argDT argCat =
      (exportRows txs uid y m argDF argDT argCat).map
        (fun t => (t.tx_date, t.kind, t.category, t.amount, t.note)) := by
  refine ⟨?_, pairwise_sortBy ascLe_trans ascLe_total _, rfl, rfl⟩
  unfold exportRows indexListing indexFiltered
  rw [parse_filters_eq_current y m argDF argDT argCat, hcat]
  exact (sortBy_perm _ _).trans (sortBy_perm _ _).symm

/-- Witness for C7 at a concrete store and the clean category query
`"Food"`. -/
theorem C7_export_matches_listing_witness :
    (exportRows oneFood 1 2024 3 [] [] foodK).Perm
      (indexListing oneFood 1 2024 3 [] [] foodK) ∧
    (exportRows oneFood 1 2024 3 [] [] foodK).Pairwise (fun s t => ascLe s t = true) ∧
    csvDataLines oneFood 1 2024 3 [] [] foodK =
      (exportRows oneFood 1 2024 3 [] [] foodK).map
        (fun t => [t.tx_date, t.kind, t.category, fmt2 t.amount, t.note]) ∧
    xlsxDataRows oneFood 1 2024 3 [] [] foodK =
      (exportRows oneFood 1 2024 3 [] [] foodK).map
        (fun t => (t.tx_date, t.kind, t.category, t.amount, t.note)) :=
  C7_export_matches_listing oneFood 1 2024 3 [] [] foodK (by decide)

/-- Claim C8: two-run noninterference between users: whenever two stores
agree on user `uid`'s transactions (so they differ only in other users'
rows), every listing, export, and aggregation output computed for `uid`
agrees — other users' transactions contribute nothing. -/
theorem C8_user_isolation (txs txs' : List Txn) (bs : List BudgetRow) (uid y m : Nat)
    (argDF argDT argCat df dt rawCat : Str)
    (h : txs.filter (fun t => t.user_id == uid) = txs'.filter (fun t => t.user_id == uid)) :
    indexListing txs uid y m argDF argDT argCat =
      indexListing txs' uid y m argDF argDT argCat ∧
    exportRows txs uid y m argDF argDT argCat = exportRows txs' uid y m argDF argDT argCat ∧
    incomeTotal txs uid df dt rawCat = incomeTotal txs' uid df dt rawCat ∧
    expenseTotal txs uid df dt rawCat = expenseTotal txs' uid df dt rawCat ∧
    balance txs uid df dt rawCat = balance txs' uid df dt rawCat ∧
    catBreakdown txs uid df dt rawCat = catBreakdown txs' uid df dt rawCat ∧
    csvDataLines txs uid y m argDF argDT argCat =
      csvDataLines txs' uid y m argDF argDT argCat ∧
    xlsxDataRows txs uid y m argDF argDT argCat =
      xlsxDataRows txs' uid y m argDF argDT argCat ∧
    progressPct bs txs uid y m df dt rawCat = progressPct bs txs' uid y m df dt rawCat ∧
    remaining bs txs uid y m df dt rawCat = remaining bs txs' uid y m df dt rawCat := by
  have key : ∀ df' dt' c', txs.filter (indexPred uid df' dt' c') =
      txs'.filter (indexPred uid df' dt' c') :=
    fun df' dt' c' => indexFiltered_congr h df' dt' c'
  have kf : ∀ df' dt' c', indexFiltered txs uid df' dt' c' =
      indexFiltered txs' uid df' dt' c' :=
    fun df' dt' c' => key df' dt' c'
  have hlist : indexListing txs uid y m argDF argDT argCat =
      indexListing txs' uid y m argDF argDT argCat := by
    unfold indexListing
    dsimp only
    rw [kf]
  have hexport : exportRows txs uid y m argDF argDT argCat =
      exportRows txs' uid y m argDF argDT argCat := by
    unfold exportRows
    dsimp only
    rw [key]
  have hinc : incomeTotal txs uid df dt rawCat = incomeTotal txs' uid df dt rawCat := by
    unfold incomeTotal
    rw [kf]
  have hexp : expenseTotal txs uid df dt rawCat = expenseTotal txs' uid df dt rawCat := by
    unfold expenseTotal
    rw [kf]
  refine ⟨hlist, hexport, hinc, hexp, ?_, ?_, ?_, ?_, ?_, ?_⟩
  · unfold balance
    rw [hinc, hexp]
  · unfold catBreakdown
    rw [kf]
  · unfold csvDataLines
    rw [hexport]
  · unfold xlsxDataRows
    rw [hexport]
  · unfold progressPct
    rw [hexp]
  · unfold remaining
    rw [hexp]

/-- Witness for C8: removing user 1's transaction from the store leaves all
of user 2's outputs unchanged. -/
theorem C8_user_isolation_witness :
    indexListing [rowA, rowB] 2 2024 3 [] [] [] = indexListing [rowB] 2 2024 3 [] [] [] ∧
    exportRows [rowA, rowB] 2 2024 3 [] [] [] = exportRows [rowB] 2 2024 3 [] [] [] ∧
    incomeTotal [rowA, rowB] 2 dMar1 dMar31 [] = incomeTotal [rowB] 2 dMar1 dMar31 [] ∧
    expenseTotal [rowA, rowB] 2 dMar1 dMar31 [] = expenseTotal [rowB] 2 dMar1 dMar31 [] ∧
    balance [rowA, rowB] 2 dMar1 dMar31 [] = balance [rowB] 2 dMar1 dMar31 [] ∧
    catBreakdown [rowA, rowB] 2 dMar1 dMar31 [] = catBreakdown [rowB] 2 dMar1 dMar31 [] ∧
    csvDataLines [rowA, rowB] 2 2024 3 [] [] [] = csvDataLines [rowB] 2 2024 3 [] [] [] ∧
    xlsxDataRows [rowA, rowB] 2 2024 3 [] [] [] = xlsxDataRows [rowB] 2 2024 3 [] [] [] ∧
    progressPct oneBudget [rowA, rowB] 2 2024 3 dMar1 dMar31 [] =
      progressPct oneBudget [rowB] 2 2024 3 dMar1 dMar31 [] ∧
    remaining oneBudget [rowA, rowB] 2 2024 3 dMar1 dMar31 [] =
      remaining oneBudget [rowB] 2 2024 3 dMar1 dMar31 [] :=
  C8_user_isolation [rowA, rowB] [rowB] oneBudget 2 2024 3 [] [] [] dMar1 dMar31 []
    (by decide)

/-- Claim C9 as stated is false: a whitespace-only submitted note is truthy
(not treated as omitted), falls through the `or`, and is then stripped to the
empty string — so an edit can empty a non-empty stored note after all. -/
theorem C9_counterexample :
    storedTx.note ≠ [] ∧
    (editTx [storedTx] 5 1 wsNoteEdit).1 =
      [⟨5, 1, dMar10, incomeK, foodK, Rat.divInt 1 1, []⟩] := by
  exact ⟨by decide, by decide⟩

/-- Claim C9 (amended): for an edit of an existing owned row, empty submitted
date and kind fall back to the stored values verbatim; an empty submitted
category falls back to the stored category trimmed (`"General"` only when
that trims to empty), not to `"General"` directly; an empty submitted amount
falls back to the stored amount (re-rounded to 2 decimals); but the note
falls back to the stored note **trimmed** — a blank-note edit normalizes a
whitespace-padded stored note, and a whitespace-only submitted note (treated
as present) empties the note. -/
theorem C9_edit_blank_fallback (txs : List Txn) (tx_id uid : Nat) (row : Txn) (f : EditForm)
    (hfind : findTx txs tx_id uid = some row)
    (hdate : f.tx_date = []) (hkind : f.kind = []) (hcat : f.category = [])
    (hamt : f.amount = [])
    (hk : (row.kind == incomeK || row.kind == expenseK) = true) (hra : 0 ≤ row.amount) :
    (editTx txs tx_id uid f).1 = txs.map (fun t =>
      if t.id == tx_id && t.user_id == uid then
        { t with tx_date := row.tx_date, kind := row.kind,
                 category := if (strip row.category).isEmpty then generalK
                   else strip row.category,
                 amount := round2 row.amount,
                 note := strip (if f.note.isEmpty then row.note else f.note) }
      else t) := by
  have hneg : ¬ round2 row.amount < 0 := not_lt.mpr (round2_nonneg hra)
  simp only [editTx, hfind, hdate, hkind, hcat, hamt, List.isEmpty_nil, if_true]
  simp only [hneg, if_false, hk, Bool.not_true, Bool.false_eq_true]
  cases hm : pyInt? ((row.tx_date.drop 5).take 2) with
  | none => simp [hm]
  | some mth => simp [hm]

/-- Witness for C9: an all-blank edit of a stored row keeps its date, kind,
category, amount, and (already-trimmed) note. -/
theorem C9_edit_blank_fallback_witness :
    (editTx [storedTx] 5 1 blankEdit).1 =
      [⟨5, 1, dMar10, incomeK, foodK, Rat.divInt 1 1, "hi".toList⟩] := by
  have h := C9_edit_blank_fallback [storedTx] 5 1 storedTx blankEdit (by decide)
    rfl rfl rfl rfl (by decide) (by decide)
  exact h.trans (by decide)

end BudgetApp
